import Mathlib

/-!
Verification of the LM75 temperature-sensor driver (lm75.c / lm75.h).

The driver talks to an LM75-family sensor over I2C.  Its core is the
temperature codec: `write_temperature` encodes a Celsius float into the
2-byte register format, and `conv_neg_temp_from_raw` /
`conv_pos_temp_from_raw` decode a raw 16-bit register value back to
Celsius, for the 9-bit and 11-bit sensor variants.

Embedding choices:
* Temperatures are embedded as `ℚ`.  Every value the driver manipulates
  is a small multiple of 0.125 °C, and every float operation the C code
  performs on such values (int conversion, subtraction, `fabs`,
  comparison with 0.5f, multiplication by 0.5f / 0.125f, negation) is
  exact in IEEE single precision, so the rational embedding is faithful.
* `uint8_t` / `uint16_t` values are embedded as `ℕ` with explicit
  `% 256` / 16-bit masking where the C code truncates.
* The C enum `LM75_Version` is embedded as `ℕ` (`LM75_9BIT = 0`,
  `LM75_11BIT = 1`) so that unrecognized enum values can be expressed.
* The HAL I2C transport is an external collaborator; it is embedded as a
  `BusModel` (an oracle giving each read's outcome and each write's
  success), and every operation additionally returns the list of
  attempted register writes (`WriteEvent`s), so that "performs zero bus
  writes" and read-modify-write round trips are expressible.
-/

/-- Status returned by LM75 functions (`LM75_Status` in lm75.h). -/
inductive LM75_Status where
  | LM75_OK
  | LM75_ERROR
deriving DecidableEq

export LM75_Status (LM75_OK LM75_ERROR)

/-- Enum value `LM75_9BIT` of the C enum `LM75_Version`. -/
def LM75_9BIT : ℕ := 0

/-- Enum value `LM75_11BIT` of the C enum `LM75_Version`. -/
def LM75_11BIT : ℕ := 1

/-- Register address `LM75_TEMP_REG` (0x00). -/
def LM75_TEMP_REG : ℕ := 0x00

/-- Register address `LM75_CONF_REG` (0x01). -/
def LM75_CONF_REG : ℕ := 0x01

/-- Register address `LM75_THYST_REG` (0x02). -/
def LM75_THYST_REG : ℕ := 0x02

/-- Register address `LM75_TOS_REG` (0x03). -/
def LM75_TOS_REG : ℕ := 0x03

/-- Configuration bit `SHUTDOWN` (0x01). -/
def SHUTDOWN : ℕ := 0x01

/-- Configuration bits `CMP_MODE` (0x00). -/
def CMP_MODE : ℕ := 0x00

/-- Configuration bits `OS_ACT_LOW` (0x00). -/
def OS_ACT_LOW : ℕ := 0x00

/-- Configuration bits `TWO_FAULTS` (0x08). -/
def TWO_FAULTS : ℕ := 0x08

/-- Threshold upper limit `MAX_TEMP` (125 °C). -/
def MAX_TEMP : ℚ := 125

/-- Threshold lower limit `MIN_TEMP` (−55 °C). -/
def MIN_TEMP : ℚ := -55

/-- Sentinel stored in `temp_c` on a conversion error (`CONV_ERR`, −1000.0f). -/
def CONV_ERR : ℚ := -1000

/-- The `LM75` handle struct of lm75.h.  The `i2c` pointer is embedded as an
opaque numeric identifier; the actual transport behaviour lives in `BusModel`. -/
structure LM75 where
  i2c : ℕ
  ver : ℕ
  addr : ℕ
  thyst_c : ℚ
  tos_c : ℚ
  temp_c : ℚ
deriving DecidableEq

/-- One attempted `HAL_I2C_Mem_Write` call: device address, register address,
and the bytes handed to the HAL. -/
structure WriteEvent where
  dev_addr : ℕ
  mem_addr : ℕ
  data : List ℕ
deriving DecidableEq

/-- The external I2C transport, as an oracle: `mem_write dev mem data` tells
whether `HAL_I2C_Mem_Write` returns `HAL_OK`, and `mem_read dev mem len`
gives the bytes produced by `HAL_I2C_Mem_Read` (`none` = HAL failure). -/
structure BusModel where
  mem_write : ℕ → ℕ → List ℕ → Bool
  mem_read : ℕ → ℕ → ℕ → Option (List ℕ)

/-- Truncation of a rational toward zero: the embedding of C's
float-to-signed-integer conversion `(int8_t)temp`. -/
def ratTrunc (q : ℚ) : ℤ := if 0 ≤ q then ⌊q⌋ else ⌈q⌉

/-- The embedding of `fabs`. -/
def ratAbs (q : ℚ) : ℚ := if q < 0 then -q else q

/-- The 2-byte buffer built by `write_temperature` (lm75.c lines 91–102):
`value[0]` is `temp` truncated to a signed 8-bit integer (shown here as its
unsigned byte), and `value[1]` is 0x80 when `fabs(temp - value[0]) >= 0.5f`,
else 0x00. -/
def write_temperature_bytes (temp : ℚ) : List ℕ :=
  [((ratTrunc temp) % 256).toNat,
   if (1 : ℚ)/2 ≤ ratAbs (temp - ((ratTrunc temp : ℤ) : ℚ)) then 0x80 else 0x00]

/-- `write_config` (lm75.c): one-byte write to the configuration register.
Returns the status and the attempted write, which is logged whether or not
the HAL reports success. -/
def write_config (bus : BusModel) (dev : LM75) (data : ℕ) :
    LM75_Status × List WriteEvent :=
  if bus.mem_write dev.addr LM75_CONF_REG [data] then
    (LM75_OK, [⟨dev.addr, LM75_CONF_REG, [data]⟩])
  else
    (LM75_ERROR, [⟨dev.addr, LM75_CONF_REG, [data]⟩])

/-- `read_config` (lm75.c): one-byte read of the configuration register.
`none` embeds the `LM75_ERROR` path (destination byte untouched); the byte is
reduced `% 256` because the HAL stores it into a `uint8_t`. -/
def read_config (bus : BusModel) (dev : LM75) : Option ℕ :=
  match bus.mem_read dev.addr LM75_CONF_REG 1 with
  | some (b :: _) => some (b % 256)
  | _ => none

/-- `write_temperature` (lm75.c): encodes `temp` and writes the 2 bytes to the
Tos or Thyst register at `mem_addr`. -/
def write_temperature (bus : BusModel) (dev : LM75) (mem_addr : ℕ) (temp : ℚ) :
    LM75_Status × List WriteEvent :=
  let value := write_temperature_bytes temp
  if bus.mem_write dev.addr mem_addr value then
    (LM75_OK, [⟨dev.addr, mem_addr, value⟩])
  else
    (LM75_ERROR, [⟨dev.addr, mem_addr, value⟩])

/-- `read_temperature` (lm75.c): reads 2 bytes and assembles
`(temp_data[0] << 8) | temp_data[1]`; `none` embeds the `LM75_ERROR` path.
Bytes are reduced `% 256` because the HAL stores them into `uint8_t`s. -/
def read_temperature (bus : BusModel) (dev : LM75) (mem_addr : ℕ) : Option ℕ :=
  match bus.mem_read dev.addr mem_addr 2 with
  | some (b0 :: b1 :: _) => some (((b0 % 256) <<< 8) ||| (b1 % 256))
  | _ => none

/-- `is_temperature_negative` (lm75.c): tests `temp & 0x8000`. -/
def is_temperature_negative (temp : ℕ) : Bool :=
  temp &&& 0x8000 != 0

/-- `conv_neg_temp_from_raw` (lm75.c lines 139–159).  `raw_temp` is a
`uint16_t`, so `~raw_temp` is `raw_temp ^^^ 0xFFFF`.  On an unrecognized
variant the destination float is left untouched (`dest` is returned). -/
def conv_neg_temp_from_raw (raw_temp : ℕ) (ver : ℕ) (dest : ℚ) :
    LM75_Status × ℚ :=
  let r := raw_temp ^^^ 0xFFFF
  if ver = LM75_9BIT then
    (LM75_OK, -((1 : ℚ)/2 * (((r >>> 7) + 1 : ℕ) : ℚ)))
  else if ver = LM75_11BIT then
    (LM75_OK, -((1 : ℚ)/8 * (((r >>> 5) + 1 : ℕ) : ℚ)))
  else
    (LM75_ERROR, dest)

/-- `conv_pos_temp_from_raw` (lm75.c lines 162–178). -/
def conv_pos_temp_from_raw (raw_temp : ℕ) (ver : ℕ) (dest : ℚ) :
    LM75_Status × ℚ :=
  if ver = LM75_9BIT then
    (LM75_OK, (1 : ℚ)/2 * ((raw_temp >>> 7 : ℕ) : ℚ))
  else if ver = LM75_11BIT then
    (LM75_OK, (1 : ℚ)/8 * ((raw_temp >>> 5 : ℕ) : ℚ))
  else
    (LM75_ERROR, dest)

/-- The decode dispatch performed inside `LM75_GetTemperature`: sign test via
`is_temperature_negative`, then the negative or positive conversion path. -/
def decode_temp (raw : ℕ) (ver : ℕ) (dest : ℚ) : LM75_Status × ℚ :=
  if is_temperature_negative raw then
    conv_neg_temp_from_raw raw ver dest
  else
    conv_pos_temp_from_raw raw ver dest

/-- Assemble a 16-bit raw register value from the 2-byte buffer, exactly as
`read_temperature` would after the bytes travel over the bus. -/
def raw_of_bytes : List ℕ → ℕ
  | b0 :: b1 :: _ => ((b0 % 256) <<< 8) ||| (b1 % 256)
  | _ => 0

/-- `LM75_SetHysteresis` (lm75.c lines 223–238).  Returns the status, the
updated handle, and the attempted bus writes. -/
def LM75_SetHysteresis (bus : BusModel) (dev : LM75) (low_lim : ℚ) :
    LM75_Status × LM75 × List WriteEvent :=
  if low_lim > MAX_TEMP ∨ low_lim < MIN_TEMP then
    (LM75_ERROR, dev, [])
  else
    match write_temperature bus dev LM75_THYST_REG low_lim with
    | (LM75_OK, evs) => (LM75_OK, { dev with thyst_c := low_lim }, evs)
    | (LM75_ERROR, evs) => (LM75_ERROR, dev, evs)

/-- `LM75_SetOverTemperatureShutdown` (lm75.c lines 241–256). -/
def LM75_SetOverTemperatureShutdown (bus : BusModel) (dev : LM75)
    (upp_lim : ℚ) : LM75_Status × LM75 × List WriteEvent :=
  if upp_lim > MAX_TEMP ∨ upp_lim < MIN_TEMP then
    (LM75_ERROR, dev, [])
  else
    match write_temperature bus dev LM75_TOS_REG upp_lim with
    | (LM75_OK, evs) => (LM75_OK, { dev with tos_c := upp_lim }, evs)
    | (LM75_ERROR, evs) => (LM75_ERROR, dev, evs)

/-- The "Set struct parameters" block of `LM75_Init` (lm75.c lines 188–193):
the handle the function builds before validating, with every field
overwritten.  `addr` is a `uint8_t`, so the stored device address is
`(addr << 1)` truncated to a byte. -/
def init_handle (hi2c : ℕ) (ver : ℕ) (addr : ℕ) : LM75 :=
  { i2c := hi2c, ver := ver, addr := (addr <<< 1) % 256,
    thyst_c := 0, tos_c := 0, temp_c := 0 }

/-- `LM75_Init` (lm75.c lines 182–220).  The input handle `dev` is the struct
the caller passes by pointer; every one of its fields is overwritten (see
`init_handle`) before the `low_lim >= upp_lim` validation runs. -/
def LM75_Init (bus : BusModel) (dev : LM75) (hi2c : ℕ) (ver : ℕ) (addr : ℕ)
    (low_lim upp_lim : ℚ) : LM75_Status × LM75 × List WriteEvent :=
  if low_lim ≥ upp_lim then
    (LM75_ERROR, init_handle hi2c ver addr, [])
  else
    match write_config bus (init_handle hi2c ver addr)
        (TWO_FAULTS ||| OS_ACT_LOW ||| CMP_MODE) with
    | (LM75_ERROR, evs) => (LM75_ERROR, init_handle hi2c ver addr, evs)
    | (LM75_OK, evs) =>
      match LM75_SetHysteresis bus (init_handle hi2c ver addr) low_lim with
      | (LM75_ERROR, dev2, evs2) => (LM75_ERROR, dev2, evs ++ evs2)
      | (LM75_OK, dev2, evs2) =>
        match LM75_SetOverTemperatureShutdown bus dev2 upp_lim with
        | (LM75_ERROR, dev3, evs3) => (LM75_ERROR, dev3, evs ++ evs2 ++ evs3)
        | (LM75_OK, dev3, evs3) => (LM75_OK, dev3, evs ++ evs2 ++ evs3)

/-- `LM75_GetTemperature` (lm75.c lines 259–286).  On a failed bus read it
returns early (the handle is untouched); on a failed conversion the sensor
variant is unrecognized, the conversion left `temp_c` untouched, and the
function then stores `CONV_ERR` in it. -/
def LM75_GetTemperature (bus : BusModel) (dev : LM75) : LM75_Status × LM75 :=
  match read_temperature bus dev LM75_TEMP_REG with
  | none => (LM75_ERROR, dev)
  | some raw =>
    if is_temperature_negative raw then
      match conv_neg_temp_from_raw raw dev.ver dev.temp_c with
      | (LM75_OK, t) => (LM75_OK, { dev with temp_c := t })
      | (LM75_ERROR, _) => (LM75_ERROR, { dev with temp_c := CONV_ERR })
    else
      match conv_pos_temp_from_raw raw dev.ver dev.temp_c with
      | (LM75_OK, t) => (LM75_OK, { dev with temp_c := t })
      | (LM75_ERROR, _) => (LM75_ERROR, { dev with temp_c := CONV_ERR })

/-- `LM75_ShutdownEnable` (lm75.c lines 289–306): read the configuration
byte, OR in `SHUTDOWN`, write it back. -/
def LM75_ShutdownEnable (bus : BusModel) (dev : LM75) :
    LM75_Status × List WriteEvent :=
  match read_config bus dev with
  | none => (LM75_ERROR, [])
  | some c => write_config bus dev (c ||| SHUTDOWN)

/-- `LM75_ShutdownDisable` (lm75.c lines 309–326): read the configuration
byte, AND out `SHUTDOWN` (`cfg &= ~SHUTDOWN` on a `uint8_t` is `&&& 0xFE`),
write it back. -/
def LM75_ShutdownDisable (bus : BusModel) (dev : LM75) :
    LM75_Status × List WriteEvent :=
  match read_config bus dev with
  | none => (LM75_ERROR, [])
  | some c => write_config bus dev (c &&& 0xFE)

/-- `LM75_SetConfiguration` (lm75.c lines 329–336). -/
def LM75_SetConfiguration (bus : BusModel) (dev : LM75) (reg_val : ℕ) :
    LM75_Status × List WriteEvent :=
  write_config bus dev reg_val

/-- A register file of the device, for running read-modify-write sequences:
each register address holds the list of bytes last written there. -/
def RegFile : Type := ℕ → List ℕ

/-- A bus whose reads return the device's current register contents and whose
writes always succeed. -/
def idealBus (regs : RegFile) : BusModel where
  mem_write := fun _ _ _ => true
  mem_read := fun _ mem len => some (List.take len (regs mem))

/-- Apply one write event to the device's register file. -/
def applyEvent (regs : RegFile) (ev : WriteEvent) : RegFile :=
  fun a => if a = ev.mem_addr then ev.data else regs a

/-- Apply a sequence of write events in order. -/
def applyEvents (regs : RegFile) (evs : List WriteEvent) : RegFile :=
  evs.foldl applyEvent regs

/-- A bus on which every read fails and every write succeeds. -/
def failReadBus : BusModel where
  mem_write := fun _ _ _ => true
  mem_read := fun _ _ _ => none

/-- A bus on which every transfer succeeds and every read returns the two
fixed bytes `b0`, `b1`. -/
def constBus (b0 b1 : ℕ) : BusModel where
  mem_write := fun _ _ _ => true
  mem_read := fun _ _ _ => some [b0, b1]

/-- A concrete handle for counterexample runs: 9-bit variant, device address
0x90 (= 0x48 << 1), cached temperature 42 °C. -/
def dev0 : LM75 :=
  { i2c := 0, ver := LM75_9BIT, addr := 0x90,
    thyst_c := 0, tos_c := 0, temp_c := 42 }

/-- A handle whose `ver` field holds the unrecognized variant value 2. -/
def devBadVer : LM75 :=
  { i2c := 0, ver := 2, addr := 0x90, thyst_c := 0, tos_c := 0, temp_c := 0 }

/-- A register file whose configuration register holds the byte 0x01, i.e.
the shutdown bit is already set. -/
def regs0 : RegFile := fun a => if a = LM75_CONF_REG then [1] else []

/-! ### Helper lemmas about the codec arithmetic -/

lemma ratTrunc_natCast (k : ℕ) : ratTrunc (k : ℚ) = k := by
  unfold ratTrunc
  rw [if_pos (by positivity)]
  exact_mod_cast Int.floor_natCast k

lemma ratTrunc_natCast_add_half (k : ℕ) :
    ratTrunc ((k : ℚ) + 1/2) = k := by
  unfold ratTrunc
  rw [if_pos (by positivity), Int.floor_eq_iff]
  constructor
  · push_cast; linarith
  · push_cast; linarith

lemma ratTrunc_neg_natCast (n : ℕ) (hn : 1 ≤ n) :
    ratTrunc (-(n : ℚ)) = -(n : ℤ) := by
  unfold ratTrunc
  rw [if_neg]
  · rw [show (-(n : ℚ)) = ((-(n : ℤ) : ℤ) : ℚ) by push_cast; ring]
    exact Int.ceil_intCast _
  · rw [not_le]
    have : (1 : ℚ) ≤ (n : ℚ) := by exact_mod_cast hn
    linarith

lemma write_bytes_nonneg (k h : ℕ) (hk : k ≤ 124) (hh : h ≤ 1) :
    write_temperature_bytes ((k : ℚ) + (h : ℚ)/2) = [k, 128 * h] := by
  interval_cases h
  · unfold write_temperature_bytes
    rw [show ((k : ℚ) + (0 : ℕ)/2) = (k : ℚ) by push_cast; ring]
    rw [ratTrunc_natCast]
    have hb0 : (((k : ℤ)) % 256).toNat = k := by omega
    have habs : ratAbs ((k : ℚ) - ((k : ℤ) : ℚ)) = 0 := by
      unfold ratAbs
      push_cast
      norm_num
    rw [hb0, habs]
    norm_num
  · unfold write_temperature_bytes
    rw [show ((k : ℚ) + (1 : ℕ)/2) = ((k : ℚ) + 1/2) by push_cast; ring]
    rw [ratTrunc_natCast_add_half]
    have hb0 : (((k : ℤ)) % 256).toNat = k := by omega
    have habs : ratAbs (((k : ℚ) + 1/2) - ((k : ℤ) : ℚ)) = 1/2 := by
      unfold ratAbs
      push_cast
      norm_num
    rw [hb0, habs]
    norm_num

lemma write_bytes_negint (n : ℕ) (h1 : 1 ≤ n) (h2 : n ≤ 55) :
    write_temperature_bytes (-(n : ℚ)) = [256 - n, 0] := by
  unfold write_temperature_bytes
  rw [ratTrunc_neg_natCast n h1]
  have hb0 : ((-(n : ℤ)) % 256).toNat = 256 - n := by omega
  have habs : ratAbs ((-(n : ℚ)) - ((-(n : ℤ) : ℤ) : ℚ)) = 0 := by
    unfold ratAbs
    push_cast
    norm_num
  rw [hb0, habs]
  norm_num

set_option maxRecDepth 4000 in
lemma raw_nonneg_facts : ∀ k : ℕ, k ≤ 124 → ∀ h : ℕ, h ≤ 1 →
    raw_of_bytes [k, 128 * h] &&& 0x8000 = 0 ∧
    raw_of_bytes [k, 128 * h] >>> 7 = 2 * k + h ∧
    raw_of_bytes [k, 128 * h] >>> 5 = 8 * k + 4 * h := by
  decide

set_option maxRecDepth 4000 in
lemma raw_negint_facts : ∀ n : ℕ, n ≤ 55 → 1 ≤ n →
    raw_of_bytes [256 - n, 0] &&& 0x8000 = 0x8000 ∧
    (raw_of_bytes [256 - n, 0] ^^^ 0xFFFF) >>> 7 + 1 = 2 * n ∧
    (raw_of_bytes [256 - n, 0] ^^^ 0xFFFF) >>> 5 + 1 = 8 * n := by
  decide

/-! ### C1: encode/decode round trip -/

/-- C1 (counterexample): the round-trip bound fails on the 9-bit grid.  At
tempC = −54.5 °C (a 0.5-multiple inside [−55, 124.5]) the encoder truncates
toward zero and sets the half-degree flag, producing bytes 0xCA 0x80, which
the 9-bit decoder reads back as −53.5 °C — an error of 1.0 °C, i.e. two
fractional steps. -/
theorem roundtrip_fails_at_neg_half :
    (-55 : ℚ) ≤ -109/2 ∧ (-109/2 : ℚ) ≤ 249/2 ∧
    decode_temp (raw_of_bytes (write_temperature_bytes (-109/2))) LM75_9BIT 0 =
      (LM75_OK, -107/2) ∧
    ¬ ratAbs ((-107/2 : ℚ) - (-109/2)) ≤ 1/2 := by
  refine ⟨by norm_num, by norm_num, ?_, ?_⟩
  · have htr : ratTrunc (-109/2 : ℚ) = -54 := by
      unfold ratTrunc
      rw [if_neg (by norm_num), Int.ceil_eq_iff]
      constructor <;> norm_num
    have hbytes : write_temperature_bytes (-109/2 : ℚ) = [202, 128] := by
      unfold write_temperature_bytes
      rw [htr]
      have habs : ratAbs ((-109/2 : ℚ) - ((-54 : ℤ) : ℚ)) = 1/2 := by
        unfold ratAbs
        norm_num
      rw [habs]
      norm_num
      decide
    rw [hbytes]
    have hraw : raw_of_bytes [202, 128] = 51840 := by decide
    rw [hraw]
    have hneg : is_temperature_negative 51840 = true := by decide
    unfold decode_temp
    rw [hneg]
    simp only [if_true]
    unfold conv_neg_temp_from_raw
    rw [if_pos rfl]
    have hsh : (51840 ^^^ 0xFFFF) >>> 7 + 1 = 107 := by decide
    rw [hsh]
    norm_num
  · unfold ratAbs
    norm_num

/-- C1 (amended, proved): the round trip is exact — hence within one
fractional step — for both variants on the part of the grid the encoder can
represent: every nonnegative multiple of 0.5 °C up to 124.5 (`k + h/2` with
`k ≤ 124`, `h ≤ 1`) and every negative integer down to −55.  (On negative
half-steps and on 11-bit quarter/eighth steps the bound fails, as the
counterexample shows.) -/
theorem roundtrip_exact_on_grid (v k h n : ℕ)
    (hv : v = LM75_9BIT ∨ v = LM75_11BIT)
    (hk : k ≤ 124) (hh : h ≤ 1) (hn1 : 1 ≤ n) (hn : n ≤ 55) :
    decode_temp (raw_of_bytes (write_temperature_bytes ((k : ℚ) + (h : ℚ)/2))) v 0 =
      (LM75_OK, (k : ℚ) + (h : ℚ)/2) ∧
    decode_temp (raw_of_bytes (write_temperature_bytes (-(n : ℚ)))) v 0 =
      (LM75_OK, -(n : ℚ)) := by
  rw [write_bytes_nonneg k h hk hh, write_bytes_negint n hn1 hn]
  obtain ⟨s1, s2, s3⟩ := raw_nonneg_facts k hk h hh
  obtain ⟨t1, t2, t3⟩ := raw_negint_facts n hn hn1
  have hnegp : is_temperature_negative (raw_of_bytes [k, 128 * h]) = false := by
    unfold is_temperature_negative
    simp [s1]
  have hnegn : is_temperature_negative (raw_of_bytes [256 - n, 0]) = true := by
    unfold is_temperature_negative
    simp [t1]
  unfold decode_temp
  rw [hnegp, hnegn]
  simp only [Bool.false_eq_true, if_false, if_true]
  unfold conv_pos_temp_from_raw conv_neg_temp_from_raw
  rcases hv with hv | hv <;> subst hv
  · simp only [LM75_9BIT, LM75_11BIT, if_pos rfl]
    rw [s2, t2]
    constructor
    · push_cast
      ring
    · push_cast
      ring
  · have h10 : (LM75_11BIT = LM75_9BIT) = False := by
      simp [LM75_9BIT, LM75_11BIT]
    simp only [h10, if_false, if_pos rfl]
    rw [s3]
    have t3q : (((raw_of_bytes [256 - n, 0] ^^^ 0xFFFF) >>> 5 + 1 : ℕ) : ℚ) =
        ((8 * n : ℕ) : ℚ) := by exact_mod_cast t3
    rw [t3q]
    constructor
    · push_cast
      ring
    · push_cast
      ring

/-- Witness for `roundtrip_exact_on_grid` at v = 9-bit, tempC = 76.5 and −55. -/
theorem roundtrip_exact_on_grid_witness :
    ((0 : ℕ) = LM75_9BIT ∨ (0 : ℕ) = LM75_11BIT) ∧ (76 : ℕ) ≤ 124 ∧
    (1 : ℕ) ≤ 1 ∧ (1 : ℕ) ≤ 55 ∧ (55 : ℕ) ≤ 55 ∧
    (decode_temp (raw_of_bytes (write_temperature_bytes ((76 : ℕ) + ((1 : ℕ) : ℚ)/2))) 0 0 =
      (LM75_OK, ((76 : ℕ) : ℚ) + ((1 : ℕ) : ℚ)/2) ∧
    decode_temp (raw_of_bytes (write_temperature_bytes (-((55 : ℕ) : ℚ)))) 0 0 =
      (LM75_OK, -((55 : ℕ) : ℚ))) :=
  ⟨Or.inl rfl, by decide, by decide, by decide, by decide,
   roundtrip_exact_on_grid 0 76 1 55 (Or.inl rfl) (by decide) (by decide)
     (by decide) (by decide)⟩

/-! ### C6 / C8: the decode routine -/

lemma is_neg_testBit (raw : ℕ) :
    is_temperature_negative raw = raw.testBit 15 := by
  unfold is_temperature_negative
  rw [show (0x8000 : ℕ) = 2 ^ 15 by norm_num, Nat.and_two_pow]
  cases hb : raw.testBit 15 <;> simp [hb]

lemma decode9_neg_eval (raw val : ℕ) (hneg : is_temperature_negative raw = true)
    (hval : (raw ^^^ 0xFFFF) >>> 7 + 1 = val) (dest : ℚ) :
    decode_temp raw LM75_9BIT dest = (LM75_OK, -((1 : ℚ)/2 * (val : ℚ))) := by
  unfold decode_temp conv_neg_temp_from_raw
  rw [hneg]
  norm_num [LM75_9BIT, LM75_11BIT, hval, Prod.mk.injEq]

lemma decode9_pos_eval (raw val : ℕ) (hneg : is_temperature_negative raw = false)
    (hval : raw >>> 7 = val) (dest : ℚ) :
    decode_temp raw LM75_9BIT dest = (LM75_OK, (1 : ℚ)/2 * (val : ℚ)) := by
  unfold decode_temp conv_pos_temp_from_raw
  rw [hneg]
  norm_num [LM75_9BIT, LM75_11BIT, hval, Prod.mk.injEq]

/-- C6 (confirmed): for any 16-bit raw value, the decode dispatch takes the
negative path exactly when bit 15 is set, in which case it bitwise-inverts
raw (16-bit `~`), shifts right by 7 (9-bit) or 5 (11-bit), adds 1,
multiplies by 0.5 or 0.125 and negates; with bit 15 clear it shifts right
by the same amount without inversion and multiplies by the same step; and
for an unrecognized variant value both conversion routines fail leaving the
destination float untouched. -/
theorem decode_paths (raw v : ℕ) (dest : ℚ) (hraw : raw < 65536)
    (hv9 : v ≠ LM75_9BIT) (hv11 : v ≠ LM75_11BIT) :
    (decode_temp raw LM75_9BIT dest =
      if raw.testBit 15 then
        (LM75_OK, -((1 : ℚ)/2 * (((raw ^^^ 0xFFFF) >>> 7 + 1 : ℕ) : ℚ)))
      else
        (LM75_OK, (1 : ℚ)/2 * ((raw >>> 7 : ℕ) : ℚ))) ∧
    (decode_temp raw LM75_11BIT dest =
      if raw.testBit 15 then
        (LM75_OK, -((1 : ℚ)/8 * (((raw ^^^ 0xFFFF) >>> 5 + 1 : ℕ) : ℚ)))
      else
        (LM75_OK, (1 : ℚ)/8 * ((raw >>> 5 : ℕ) : ℚ))) ∧
    conv_neg_temp_from_raw raw v dest = (LM75_ERROR, dest) ∧
    conv_pos_temp_from_raw raw v dest = (LM75_ERROR, dest) := by
  refine ⟨?_, ?_, ?_, ?_⟩
  · unfold decode_temp
    rw [is_neg_testBit]
    cases hb : raw.testBit 15 <;>
      simp only [Bool.false_eq_true, if_false, if_true] <;> rfl
  · unfold decode_temp
    rw [is_neg_testBit]
    cases hb : raw.testBit 15 <;>
      simp only [Bool.false_eq_true, if_false, if_true] <;> rfl
  · unfold conv_neg_temp_from_raw
    rw [if_neg hv9, if_neg hv11]
  · unfold conv_pos_temp_from_raw
    rw [if_neg hv9, if_neg hv11]

/-- Witness for `decode_paths` at raw = 0x8000 and variant value 2. -/
theorem decode_paths_witness :
    ((0x8000 : ℕ) < 65536 ∧ (2 : ℕ) ≠ LM75_9BIT ∧ (2 : ℕ) ≠ LM75_11BIT) ∧
    ((decode_temp 0x8000 LM75_9BIT 0 =
      if (0x8000 : ℕ).testBit 15 then
        (LM75_OK, -((1 : ℚ)/2 * ((((0x8000 : ℕ) ^^^ 0xFFFF) >>> 7 + 1 : ℕ) : ℚ)))
      else
        (LM75_OK, (1 : ℚ)/2 * (((0x8000 : ℕ) >>> 7 : ℕ) : ℚ))) ∧
    (decode_temp 0x8000 LM75_11BIT 0 =
      if (0x8000 : ℕ).testBit 15 then
        (LM75_OK, -((1 : ℚ)/8 * ((((0x8000 : ℕ) ^^^ 0xFFFF) >>> 5 + 1 : ℕ) : ℚ)))
      else
        (LM75_OK, (1 : ℚ)/8 * (((0x8000 : ℕ) >>> 5 : ℕ) : ℚ))) ∧
    conv_neg_temp_from_raw 0x8000 2 0 = (LM75_ERROR, 0) ∧
    conv_pos_temp_from_raw 0x8000 2 0 = (LM75_ERROR, 0)) :=
  ⟨⟨by decide, by decide, by decide⟩,
   decode_paths 0x8000 2 0 (by decide) (by decide) (by decide)⟩

/-- C8 (confirmed): under the 9-bit decode, raw 0x8000 yields a strictly
negative value (−128), raw 0x0000 yields exactly 0, raw 0xC900 yields −55
(within ±0.5 of the −55 reference), and raw 0x4B00 yields 75 (within ±0.5). -/
theorem decode_known_vectors :
    (decode_temp 0x8000 LM75_9BIT 0).1 = LM75_OK ∧
    (decode_temp 0x8000 LM75_9BIT 0).2 < 0 ∧
    decode_temp 0x0000 LM75_9BIT 0 = (LM75_OK, 0) ∧
    (decode_temp 0xC900 LM75_9BIT 0).1 = LM75_OK ∧
    ratAbs ((decode_temp 0xC900 LM75_9BIT 0).2 - (-55)) ≤ 1/2 ∧
    (decode_temp 0x4B00 LM75_9BIT 0).1 = LM75_OK ∧
    ratAbs ((decode_temp 0x4B00 LM75_9BIT 0).2 - 75) ≤ 1/2 := by
  have e1 := decode9_neg_eval 0x8000 256 (by decide) (by decide) 0
  have e2 := decode9_pos_eval 0x0000 0 (by decide) (by decide) 0
  have e3 := decode9_neg_eval 0xC900 110 (by decide) (by decide) 0
  have e4 := decode9_pos_eval 0x4B00 150 (by decide) (by decide) 0
  rw [e1, e2, e3, e4]
  unfold ratAbs
  norm_num

/-! ### Setter unfolding helpers -/

lemma setHysteresis_eq (bus : BusModel) (dev : LM75) (t : ℚ) :
    LM75_SetHysteresis bus dev t =
      if t > MAX_TEMP ∨ t < MIN_TEMP then (LM75_ERROR, dev, [])
      else if bus.mem_write dev.addr LM75_THYST_REG (write_temperature_bytes t) then
        (LM75_OK, { dev with thyst_c := t },
         [⟨dev.addr, LM75_THYST_REG, write_temperature_bytes t⟩])
      else
        (LM75_ERROR, dev,
         [⟨dev.addr, LM75_THYST_REG, write_temperature_bytes t⟩]) := by
  unfold LM75_SetHysteresis write_temperature
  by_cases hr : t > MAX_TEMP ∨ t < MIN_TEMP
  · rw [if_pos hr, if_pos hr]
  · rw [if_neg hr, if_neg hr]
    cases hw : bus.mem_write dev.addr LM75_THYST_REG (write_temperature_bytes t) <;>
      simp [hw]

lemma setOverTemp_eq (bus : BusModel) (dev : LM75) (t : ℚ) :
    LM75_SetOverTemperatureShutdown bus dev t =
      if t > MAX_TEMP ∨ t < MIN_TEMP then (LM75_ERROR, dev, [])
      else if bus.mem_write dev.addr LM75_TOS_REG (write_temperature_bytes t) then
        (LM75_OK, { dev with tos_c := t },
         [⟨dev.addr, LM75_TOS_REG, write_temperature_bytes t⟩])
      else
        (LM75_ERROR, dev,
         [⟨dev.addr, LM75_TOS_REG, write_temperature_bytes t⟩]) := by
  unfold LM75_SetOverTemperatureShutdown write_temperature
  by_cases hr : t > MAX_TEMP ∨ t < MIN_TEMP
  · rw [if_pos hr, if_pos hr]
  · rw [if_neg hr, if_neg hr]
    cases hw : bus.mem_write dev.addr LM75_TOS_REG (write_temperature_bytes t) <;>
      simp [hw]

lemma setHysteresis_fields (bus : BusModel) (dev : LM75) (t : ℚ) :
    (LM75_SetHysteresis bus dev t).2.1.i2c = dev.i2c ∧
    (LM75_SetHysteresis bus dev t).2.1.ver = dev.ver ∧
    (LM75_SetHysteresis bus dev t).2.1.addr = dev.addr := by
  rw [setHysteresis_eq]
  split_ifs <;> exact ⟨rfl, rfl, rfl⟩

lemma setOverTemp_fields (bus : BusModel) (dev : LM75) (t : ℚ) :
    (LM75_SetOverTemperatureShutdown bus dev t).2.1.i2c = dev.i2c ∧
    (LM75_SetOverTemperatureShutdown bus dev t).2.1.ver = dev.ver ∧
    (LM75_SetOverTemperatureShutdown bus dev t).2.1.addr = dev.addr := by
  rw [setOverTemp_eq]
  split_ifs <;> exact ⟨rfl, rfl, rfl⟩

/-! ### C2: ReadTemperature error handling -/

/-- C2 (counterexample): a failed bus read in `LM75_GetTemperature` does NOT
store the sentinel −1000 in `temp_c`; the function returns early and the
handle — whose cached temperature here is 42 — is left untouched. -/
theorem get_temperature_transport_failure_keeps_temp :
    LM75_GetTemperature failReadBus dev0 = (LM75_ERROR, dev0) ∧
    dev0.temp_c = 42 ∧ (42 : ℚ) ≠ CONV_ERR :=
  ⟨rfl, rfl, by norm_num [CONV_ERR]⟩

/-- C2 (amended, proved): on a failed bus read `LM75_GetTemperature` returns
the error status with the handle unchanged (the sentinel is NOT written); on
a successful read it stores the decoded value and succeeds when the variant
is recognized, and stores the sentinel `CONV_ERR` and fails when the variant
is unrecognized. -/
theorem get_temperature_cases (bus : BusModel) (dev : LM75) :
    LM75_GetTemperature bus dev =
      match read_temperature bus dev LM75_TEMP_REG with
      | none => (LM75_ERROR, dev)
      | some raw =>
        if dev.ver = LM75_9BIT ∨ dev.ver = LM75_11BIT then
          (LM75_OK, { dev with temp_c := (decode_temp raw dev.ver dev.temp_c).2 })
        else
          (LM75_ERROR, { dev with temp_c := CONV_ERR }) := by
  unfold LM75_GetTemperature
  cases hr : read_temperature bus dev LM75_TEMP_REG with
  | none => rfl
  | some raw =>
    cases hneg : is_temperature_negative raw <;>
      by_cases h9 : dev.ver = 0 <;>
        by_cases h11 : dev.ver = 1 <;>
          simp [decode_temp, conv_neg_temp_from_raw, conv_pos_temp_from_raw,
            LM75_9BIT, LM75_11BIT, hneg, h9, h11]

/-! ### C4: Init validation performs no writes -/

/-- C4 (confirmed): when `hysteresisC ≥ shutdownThresholdC`, `LM75_Init`
returns the error status and attempts no bus write at all. -/
theorem init_validation_no_writes (bus : BusModel) (dev : LM75)
    (hi2c ver addr : ℕ) (low_lim upp_lim : ℚ) (h : upp_lim ≤ low_lim) :
    (LM75_Init bus dev hi2c ver addr low_lim upp_lim).1 = LM75_ERROR ∧
    (LM75_Init bus dev hi2c ver addr low_lim upp_lim).2.2 = [] := by
  unfold LM75_Init
  rw [if_pos (ge_iff_le.mpr h)]
  exact ⟨rfl, rfl⟩

/-- Witness for `init_validation_no_writes` at hysteresis 80, threshold 75. -/
theorem init_validation_no_writes_witness :
    (75 : ℚ) ≤ 80 ∧
    ((LM75_Init failReadBus dev0 0 LM75_9BIT 0x48 80 75).1 = LM75_ERROR ∧
     (LM75_Init failReadBus dev0 0 LM75_9BIT 0x48 80 75).2.2 = []) :=
  ⟨by norm_num,
   init_validation_no_writes failReadBus dev0 0 LM75_9BIT 0x48 80 75 (by norm_num)⟩

/-! ### C5: threshold setters -/

/-- C5 (confirmed): `LM75_SetHysteresis` and
`LM75_SetOverTemperatureShutdown` reject any temperature outside [−55, 125]
(in particular 126 and −56) without attempting a bus write and without
touching the handle; on a transport failure the handle — hence the cached
field — is unchanged and the single attempted write is reported; only on
transport success is the corresponding cached field set to the input. -/
theorem set_threshold_cases (bus : BusModel) (dev : LM75) (t : ℚ) :
    (LM75_SetHysteresis bus dev t =
      if t > MAX_TEMP ∨ t < MIN_TEMP then (LM75_ERROR, dev, [])
      else if bus.mem_write dev.addr LM75_THYST_REG (write_temperature_bytes t) then
        (LM75_OK, { dev with thyst_c := t },
         [⟨dev.addr, LM75_THYST_REG, write_temperature_bytes t⟩])
      else
        (LM75_ERROR, dev,
         [⟨dev.addr, LM75_THYST_REG, write_temperature_bytes t⟩])) ∧
    (LM75_SetOverTemperatureShutdown bus dev t =
      if t > MAX_TEMP ∨ t < MIN_TEMP then (LM75_ERROR, dev, [])
      else if bus.mem_write dev.addr LM75_TOS_REG (write_temperature_bytes t) then
        (LM75_OK, { dev with tos_c := t },
         [⟨dev.addr, LM75_TOS_REG, write_temperature_bytes t⟩])
      else
        (LM75_ERROR, dev,
         [⟨dev.addr, LM75_TOS_REG, write_temperature_bytes t⟩])) ∧
    LM75_SetHysteresis bus dev 126 = (LM75_ERROR, dev, []) ∧
    LM75_SetHysteresis bus dev (-56) = (LM75_ERROR, dev, []) ∧
    LM75_SetOverTemperatureShutdown bus dev 126 = (LM75_ERROR, dev, []) ∧
    LM75_SetOverTemperatureShutdown bus dev (-56) = (LM75_ERROR, dev, []) := by
  refine ⟨setHysteresis_eq bus dev t, setOverTemp_eq bus dev t, ?_, ?_, ?_, ?_⟩
  · rw [setHysteresis_eq, if_pos (by norm_num [MAX_TEMP, MIN_TEMP])]
  · rw [setHysteresis_eq, if_pos (by norm_num [MAX_TEMP, MIN_TEMP])]
  · rw [setOverTemp_eq, if_pos (by norm_num [MAX_TEMP, MIN_TEMP])]
  · rw [setOverTemp_eq, if_pos (by norm_num [MAX_TEMP, MIN_TEMP])]

/-! ### C9: Init overwrites the handle before validating -/

/-- C9 (confirmed): `LM75_Init` overwrites every field of the handle before
the threshold validation runs: the returned handle always carries the
supplied `i2c` and `ver` and the address shifted left one bit, and when the
validation fails (`upp_lim ≤ low_lim`) the returned handle is exactly the
freshly reset one — zeroed cached temperatures — independent of the input
handle, so a failed Init is not atomic with respect to the in-memory handle. -/
theorem init_overwrites_handle (bus : BusModel) (dev : LM75)
    (hi2c ver addr : ℕ) (low_lim upp_lim : ℚ) (haddr : addr < 128) :
    (LM75_Init bus dev hi2c ver addr low_lim upp_lim).2.1.i2c = hi2c ∧
    (LM75_Init bus dev hi2c ver addr low_lim upp_lim).2.1.ver = ver ∧
    (LM75_Init bus dev hi2c ver addr low_lim upp_lim).2.1.addr = addr <<< 1 ∧
    (if upp_lim ≤ low_lim then
      LM75_Init bus dev hi2c ver addr low_lim upp_lim =
        (LM75_ERROR,
         { i2c := hi2c, ver := ver, addr := addr <<< 1,
           thyst_c := 0, tos_c := 0, temp_c := 0 }, [])
     else True) := by
  have hmod : (addr <<< 1) % 256 = addr <<< 1 := by
    rw [Nat.shiftLeft_eq]
    norm_num
    omega
  have key : (LM75_Init bus dev hi2c ver addr low_lim upp_lim).2.1.i2c = hi2c ∧
      (LM75_Init bus dev hi2c ver addr low_lim upp_lim).2.1.ver = ver ∧
      (LM75_Init bus dev hi2c ver addr low_lim upp_lim).2.1.addr =
        (addr <<< 1) % 256 := by
    unfold LM75_Init
    by_cases hv : low_lim ≥ upp_lim
    · simp only [if_pos hv]
      exact ⟨rfl, rfl, rfl⟩
    · simp only [if_neg hv]
      unfold write_config
      cases hw : bus.mem_write (init_handle hi2c ver addr).addr LM75_CONF_REG
          [TWO_FAULTS ||| OS_ACT_LOW ||| CMP_MODE]
      · simp only [Bool.false_eq_true, if_false]
        exact ⟨rfl, rfl, rfl⟩
      · simp only [if_true]
        rcases hsh : LM75_SetHysteresis bus (init_handle hi2c ver addr) low_lim
          with ⟨st2, dev2, evs2⟩
        have hf2 := setHysteresis_fields bus (init_handle hi2c ver addr) low_lim
        rw [hsh] at hf2
        simp only [init_handle] at hf2
        cases st2
        · rcases hot : LM75_SetOverTemperatureShutdown bus dev2 upp_lim
            with ⟨st3, dev3, evs3⟩
          have hf3 := setOverTemp_fields bus dev2 upp_lim
          rw [hot] at hf3
          dsimp only at hf3
          cases st3 <;>
            exact ⟨by simp only [hot, hf3.1, hf2.1],
                   by simp only [hot, hf3.2.1, hf2.2.1],
                   by simp only [hot, hf3.2.2, hf2.2.2]⟩
        · exact ⟨hf2.1, hf2.2.1, hf2.2.2⟩
  refine ⟨key.1, key.2.1, by rw [key.2.2, hmod], ?_⟩
  by_cases hval : upp_lim ≤ low_lim
  · rw [if_pos hval]
    unfold LM75_Init
    rw [if_pos (ge_iff_le.mpr hval)]
    simp [init_handle, hmod]
  · rw [if_neg hval]
    trivial

/-- Witness for `init_overwrites_handle` at address 0x48, limits 80 / 75. -/
theorem init_overwrites_handle_witness :
    (0x48 : ℕ) < 128 ∧
    ((LM75_Init failReadBus dev0 7 LM75_9BIT 0x48 80 75).2.1.i2c = 7 ∧
     (LM75_Init failReadBus dev0 7 LM75_9BIT 0x48 80 75).2.1.ver = LM75_9BIT ∧
     (LM75_Init failReadBus dev0 7 LM75_9BIT 0x48 80 75).2.1.addr = 0x48 <<< 1 ∧
     (if (75 : ℚ) ≤ 80 then
       LM75_Init failReadBus dev0 7 LM75_9BIT 0x48 80 75 =
         (LM75_ERROR,
          { i2c := 7, ver := LM75_9BIT, addr := 0x48 <<< 1,
            thyst_c := 0, tos_c := 0, temp_c := 0 }, [])
      else True)) :=
  ⟨by decide, init_overwrites_handle failReadBus dev0 7 LM75_9BIT 0x48 80 75 (by decide)⟩

/-! ### C10: the public status type has exactly two values -/

/-- C10 (confirmed): every status is either `LM75_OK` or `LM75_ERROR`, and
the four failure kinds the spec distinguishes — validation (Init with
hysteresis 80 ≥ threshold 75), range (SetHysteresis 126), transport (failed
bus read in GetTemperature) and conversion (unrecognized variant 2) — are
all reported as the single value `LM75_ERROR`. -/
theorem status_only_two_values :
    (∀ s : LM75_Status, s = LM75_OK ∨ s = LM75_ERROR) ∧
    (LM75_Init failReadBus dev0 0 LM75_9BIT 0x48 80 75).1 = LM75_ERROR ∧
    (LM75_SetHysteresis failReadBus dev0 126).1 = LM75_ERROR ∧
    (LM75_GetTemperature failReadBus dev0).1 = LM75_ERROR ∧
    (LM75_GetTemperature (constBus 0 0) devBadVer).1 = LM75_ERROR := by
  refine ⟨fun s => ?_, ?_, ?_, rfl, rfl⟩
  · cases s
    · exact Or.inl rfl
    · exact Or.inr rfl
  · unfold LM75_Init
    rw [if_pos (by norm_num)]
  · rw [setHysteresis_eq]
    rw [if_pos (by norm_num [MAX_TEMP, MIN_TEMP])]

/-! ### C3: shutdown enable/disable round trip -/

set_option maxRecDepth 10000 in
lemma shutdown_toggle_byte : ∀ c : ℕ, c < 256 → c &&& SHUTDOWN = 0 →
    (c ||| SHUTDOWN) &&& 0xFE = c := by
  decide

lemma shutdownEnable_ideal (regs : RegFile) (dev : LM75) (c : ℕ)
    (hreg : regs LM75_CONF_REG = [c]) :
    LM75_ShutdownEnable (idealBus regs) dev =
      (LM75_OK, [⟨dev.addr, LM75_CONF_REG, [(c % 256) ||| SHUTDOWN]⟩]) := by
  unfold LM75_ShutdownEnable read_config write_config idealBus
  simp [hreg]

lemma shutdownDisable_ideal (regs : RegFile) (dev : LM75) (c : ℕ)
    (hreg : regs LM75_CONF_REG = [c]) :
    LM75_ShutdownDisable (idealBus regs) dev =
      (LM75_OK, [⟨dev.addr, LM75_CONF_REG, [(c % 256) &&& 0xFE]⟩]) := by
  unfold LM75_ShutdownDisable read_config write_config idealBus
  simp [hreg]

/-- C3 (counterexample): when the configuration byte already has the shutdown
bit set (byte 0x01), `LM75_ShutdownEnable` followed by `LM75_ShutdownDisable`
leaves the register at 0x00, not at the original byte — the round trip is
not the identity for every initial byte. -/
theorem shutdown_toggle_not_restoring :
    regs0 LM75_CONF_REG = [1] ∧
    applyEvents (applyEvents regs0 (LM75_ShutdownEnable (idealBus regs0) dev0).2)
        (LM75_ShutdownDisable
          (idealBus (applyEvents regs0 (LM75_ShutdownEnable (idealBus regs0) dev0).2))
          dev0).2
        LM75_CONF_REG = [0] ∧
    ([0] : List ℕ) ≠ [1] := by
  exact ⟨rfl, rfl, by decide⟩

/-- C3 (amended, proved): for every configuration byte `c` whose shutdown bit
is clear, running `LM75_ShutdownEnable` and then `LM75_ShutdownDisable` on a
device register file (all transfers succeeding, reads returning the current
register) succeeds and leaves the configuration register equal to the
original byte bit-for-bit. -/
theorem shutdown_toggle_roundtrip (regs : RegFile) (dev : LM75) (c : ℕ)
    (hc : c < 256) (hbit : c &&& SHUTDOWN = 0)
    (hreg : regs LM75_CONF_REG = [c]) :
    (LM75_ShutdownEnable (idealBus regs) dev).1 = LM75_OK ∧
    (LM75_ShutdownDisable
        (idealBus (applyEvents regs (LM75_ShutdownEnable (idealBus regs) dev).2))
        dev).1 = LM75_OK ∧
    applyEvents (applyEvents regs (LM75_ShutdownEnable (idealBus regs) dev).2)
        (LM75_ShutdownDisable
          (idealBus (applyEvents regs (LM75_ShutdownEnable (idealBus regs) dev).2))
          dev).2
        LM75_CONF_REG = [c] := by
  have hcm : c % 256 = c := Nat.mod_eq_of_lt hc
  have hen := shutdownEnable_ideal regs dev c hreg
  have hreg1 : applyEvents regs (LM75_ShutdownEnable (idealBus regs) dev).2
      LM75_CONF_REG = [c ||| SHUTDOWN] := by
    rw [hen]
    unfold applyEvents applyEvent
    simp [hcm]
  have hlt : c ||| SHUTDOWN < 256 := by
    have h2 : (SHUTDOWN : ℕ) < 2 ^ 8 := by norm_num [SHUTDOWN]
    have h1 : c < 2 ^ 8 := by norm_num at hc ⊢; omega
    calc c ||| SHUTDOWN < 2 ^ 8 := Nat.or_lt_two_pow h1 h2
    _ = 256 := by norm_num
  have hdis := shutdownDisable_ideal
    (applyEvents regs (LM75_ShutdownEnable (idealBus regs) dev).2) dev
    (c ||| SHUTDOWN) hreg1
  refine ⟨by rw [hen], by rw [hdis], ?_⟩
  rw [hdis]
  unfold applyEvents applyEvent
  simp only [List.foldl]
  have : (c ||| SHUTDOWN) % 256 = c ||| SHUTDOWN := Nat.mod_eq_of_lt hlt
  rw [this]
  simp [shutdown_toggle_byte c hc hbit]

/-- A register file whose configuration register holds the byte 0x28
(fault queue bits set, shutdown bit clear). -/
def regsB : RegFile := fun a => if a = LM75_CONF_REG then [0x28] else []

/-- Witness for `shutdown_toggle_roundtrip` at configuration byte 0x28. -/
theorem shutdown_toggle_roundtrip_witness :
    ((0x28 : ℕ) < 256 ∧ (0x28 : ℕ) &&& SHUTDOWN = 0 ∧
     regsB LM75_CONF_REG = [0x28]) ∧
    ((LM75_ShutdownEnable (idealBus regsB) dev0).1 = LM75_OK ∧
     (LM75_ShutdownDisable
        (idealBus (applyEvents regsB (LM75_ShutdownEnable (idealBus regsB) dev0).2))
        dev0).1 = LM75_OK ∧
     applyEvents (applyEvents regsB (LM75_ShutdownEnable (idealBus regsB) dev0).2)
        (LM75_ShutdownDisable
          (idealBus (applyEvents regsB (LM75_ShutdownEnable (idealBus regsB) dev0).2))
          dev0).2
        LM75_CONF_REG = [0x28]) :=
  ⟨⟨by decide, by decide, rfl⟩,
   shutdown_toggle_roundtrip regsB dev0 0x28 (by decide) (by decide) rfl⟩

/-! ### C7: the encode routine -/

lemma ratAbs_eq_abs (q : ℚ) : ratAbs q = |q| := by
  unfold ratAbs
  rcases lt_or_ge q 0 with h | h
  · rw [if_pos h, abs_of_neg h]
  · rw [if_neg (not_lt.mpr h), abs_of_nonneg h]

/-- C7 (confirmed): for any caller-bounds-checked input, the encode buffer
has exactly two bytes; byte 0 is a value below 256 whose signed 8-bit
reading (subtract 256 when ≥ 128) is the truncation of `tempC` toward zero
(characterized by `|trunc| ≤ |tempC|` and `|tempC − trunc| < 1`); byte 1 is
0x80 exactly when `|tempC − trunc| ≥ 0.5` and takes no value other than 0x00
and 0x80.  The routine takes no variant argument and is total — it never
fails. -/
theorem encode_bytes_spec (t : ℚ) (hlo : -55 ≤ t) (hhi : t ≤ 125) :
    (write_temperature_bytes t).length = 2 ∧
    (write_temperature_bytes t).getD 0 0 < 256 ∧
    (((write_temperature_bytes t).getD 0 0 : ℤ) -
      (if 128 ≤ (write_temperature_bytes t).getD 0 0 then 256 else 0) = ratTrunc t) ∧
    ratAbs ((ratTrunc t : ℤ) : ℚ) ≤ ratAbs t ∧
    ratAbs (t - ((ratTrunc t : ℤ) : ℚ)) < 1 ∧
    ((write_temperature_bytes t).getD 1 0 = 0x80 ↔
      (1 : ℚ)/2 ≤ ratAbs (t - ((ratTrunc t : ℤ) : ℚ))) ∧
    ((write_temperature_bytes t).getD 1 0 = 0x00 ∨
     (write_temperature_bytes t).getD 1 0 = 0x80) := by
  have hb0 : (write_temperature_bytes t).getD 0 0 = ((ratTrunc t) % 256).toNat := rfl
  have hb1 : (write_temperature_bytes t).getD 1 0 =
      if (1 : ℚ)/2 ≤ ratAbs (t - ((ratTrunc t : ℤ) : ℚ)) then 0x80 else 0x00 := rfl
  have htr : (-55 : ℤ) ≤ ratTrunc t ∧ ratTrunc t ≤ 125 := by
    unfold ratTrunc
    split_ifs with h0
    · constructor
      · rw [Int.le_floor]
        push_cast
        linarith
      · have hf : (⌊t⌋ : ℚ) ≤ t := Int.floor_le t
        have : (⌊t⌋ : ℚ) ≤ 125 := by linarith
        exact_mod_cast this
    · constructor
      · have hcl : t ≤ (⌈t⌉ : ℚ) := Int.le_ceil t
        have : (-55 : ℚ) ≤ (⌈t⌉ : ℚ) := by linarith
        exact_mod_cast this
      · rw [Int.ceil_le]
        push_cast
        linarith
  refine ⟨rfl, ?_, ?_, ?_, ?_, ?_, ?_⟩
  · rw [hb0]
    omega
  · rw [hb0]
    by_cases hc : 128 ≤ ((ratTrunc t) % 256).toNat
    · rw [if_pos hc]
      omega
    · rw [if_neg hc]
      omega
  · rw [ratAbs_eq_abs, ratAbs_eq_abs]
    unfold ratTrunc
    by_cases h0 : 0 ≤ t
    · rw [if_pos h0]
      have h1 : (0 : ℚ) ≤ (⌊t⌋ : ℚ) := by
        have := Int.floor_nonneg.mpr h0
        exact_mod_cast this
      rw [abs_of_nonneg h0, abs_of_nonneg h1]
      exact Int.floor_le t
    · rw [if_neg h0]
      push_neg at h0
      have h1 : (⌈t⌉ : ℚ) ≤ 0 := by
        have h2 : ⌈t⌉ ≤ (0 : ℤ) := Int.ceil_le.mpr (by exact_mod_cast h0.le)
        exact_mod_cast h2
      rw [abs_of_nonpos h0.le, abs_of_nonpos h1]
      have := Int.le_ceil t
      linarith
  · rw [ratAbs_eq_abs]
    unfold ratTrunc
    by_cases h0 : 0 ≤ t
    · rw [if_pos h0]
      have h1 := Int.floor_le t
      have h2 := Int.lt_floor_add_one t
      rw [abs_of_nonneg (by linarith)]
      linarith
    · rw [if_neg h0]
      have h1 := Int.le_ceil t
      have h2 := Int.ceil_lt_add_one t
      rw [abs_of_nonpos (by linarith)]
      linarith
  · rw [hb1]
    split_ifs with hcond
    · exact ⟨fun _ => hcond, fun _ => rfl⟩
    · exact ⟨fun h => absurd h (by norm_num), fun h => absurd h hcond⟩
  · rw [hb1]
    split_ifs with hcond
    · right
      rfl
    · left
      rfl

/-- Witness for `encode_bytes_spec` at tempC = 25.5 °C. -/
theorem encode_bytes_spec_witness :
    ((-55 : ℚ) ≤ 51/2 ∧ (51/2 : ℚ) ≤ 125) ∧
    ((write_temperature_bytes (51/2)).length = 2 ∧
     (write_temperature_bytes (51/2)).getD 0 0 < 256 ∧
     (((write_temperature_bytes (51/2)).getD 0 0 : ℤ) -
       (if 128 ≤ (write_temperature_bytes (51/2)).getD 0 0 then 256 else 0) =
         ratTrunc (51/2)) ∧
     ratAbs ((ratTrunc (51/2 : ℚ) : ℤ) : ℚ) ≤ ratAbs (51/2) ∧
     ratAbs ((51/2 : ℚ) - ((ratTrunc (51/2 : ℚ) : ℤ) : ℚ)) < 1 ∧
     ((write_temperature_bytes (51/2)).getD 1 0 = 0x80 ↔
       (1 : ℚ)/2 ≤ ratAbs ((51/2 : ℚ) - ((ratTrunc (51/2 : ℚ) : ℤ) : ℚ))) ∧
     ((write_temperature_bytes (51/2)).getD 1 0 = 0x00 ∨
      (write_temperature_bytes (51/2)).getD 1 0 = 0x80)) :=
  ⟨⟨by norm_num, by norm_num⟩, encode_bytes_spec (51/2) (by norm_num) (by norm_num)⟩
